import Mathlib

/-!
Verification of the OpenTalons engine core against its natural-language
specification.  The definitions below are a shallow embedding of the
TypeScript sources:

  * `src/core/TileCollisionMap.ts`  → `TileCollisionMap`
  * `src/core/PhysicsSystem.ts`     → `resolveAxis`, `applyGravity`, `updateBody`
  * `src/core/GameLoop.ts`          → `clampFrameTime`, `drain`, `gameTick`
  * `src/parsers/PidLoader.ts`      → `rleLoop`, `decompressRLE`, `pidConvert`,
                                      `pidParsePixels`
  * `src/parsers/RezLoader.ts`      → `rezCheckMagic`
  * `src/parsers/WwdLoader.ts`      → `wwdParse`, `buildCollisionMap`,
                                      `selectActionLayer`

JavaScript numbers are modelled by `ℚ` (all constants appearing in the
sources are exactly representable as IEEE doubles, and every claim under
study concerns exact arithmetic), byte buffers by `List ℕ`, and typed-array
cells by total functions with functional update.  Fallible code is modelled
with `Except`; JS `undefined` reads from typed arrays, which coerce to 0 on
store, are modelled by `List.getD _ _ 0` or by `Option` where the
distinction is observable.
-/

/-! ## Physics constants — `PHYSICS_CONSTANTS` in `PhysicsSystem.ts` -/

def GRAVITY : ℚ := 35/100
def MAX_FALL_SPEED : ℚ := 16
def TILE_SIZE : ℚ := 64
def PIXEL_STUCK_THRESHOLD : ℚ := 2

/-! ## `TileCollisionMap` (`src/core/TileCollisionMap.ts`)

The backing `Uint8Array` of size `cols*rows` indexed by `row * cols + col`
is modelled by a total function `ℤ → ℕ`; the constructor fills it with 0.
`cols` and `rows` are kept as integers since the TypeScript constructor
accepts any `number`. -/

structure TileCollisionMap where
  cols : ℤ
  rows : ℤ
  tileSize : ℚ
  data : ℤ → ℕ

def mkTileCollisionMap (cols rows : ℤ) (tileSize : ℚ) : TileCollisionMap :=
  { cols := cols, rows := rows, tileSize := tileSize, data := fun _ => 0 }

def TileCollisionMap.inRange (m : TileCollisionMap) (col row : ℤ) : Prop :=
  0 ≤ col ∧ col < m.cols ∧ 0 ≤ row ∧ row < m.rows

instance (m : TileCollisionMap) (col row : ℤ) :
    Decidable (m.inRange col row) := by
  unfold TileCollisionMap.inRange; infer_instance

def TileCollisionMap.set (m : TileCollisionMap) (col row : ℤ) (attr : ℕ) :
    TileCollisionMap :=
  if col < 0 ∨ m.cols ≤ col ∨ row < 0 ∨ m.rows ≤ row then m
  else { m with data := Function.update m.data (row * m.cols + col) attr }

def TileCollisionMap.get (m : TileCollisionMap) (col row : ℤ) : ℕ :=
  if col < 0 ∨ m.cols ≤ col ∨ row < 0 ∨ m.rows ≤ row then 1  -- OOB = solid
  else m.data (row * m.cols + col)

def TileCollisionMap.getAtPixel (m : TileCollisionMap) (px py : ℚ) : ℕ :=
  m.get ⌊px / m.tileSize⌋ ⌊py / m.tileSize⌋

def TileCollisionMap.isSolid (m : TileCollisionMap) (px py : ℚ) : Bool :=
  m.getAtPixel px py = 1

/-! ## `PhysicsSystem.resolveAxisCollision` (`src/core/PhysicsSystem.ts`)

`axisHorizontal = true` corresponds to the string argument `'horizontal'`.
`mathSign` is JavaScript `Math.sign` restricted to finite inputs. -/

def mathSign (q : ℚ) : ℚ :=
  if q > 0 then 1 else if q < 0 then -1 else 0

def resolveAxis (m : TileCollisionMap) (x y vx vy w h : ℚ)
    (axisHorizontal : Bool) : ℚ × Bool :=
  let half_w := w / 2
  let half_h := h / 2
  if axisHorizontal then
    let testX := if vx > 0 then x + half_w else x - half_w
    let topY := y - half_h + 1
    let bottomY := y + half_h - 1
    if m.isSolid testX topY ∨ m.isSolid testX bottomY then
      let tileX : ℤ := ⌊testX / TILE_SIZE⌋
      let snapped := if vx > 0
        then (tileX : ℚ) * TILE_SIZE - half_w - 1
        else ((tileX : ℚ) + 1) * TILE_SIZE + half_w + 1
      if |snapped - x| < PIXEL_STUCK_THRESHOLD then (x - mathSign vx, true)
      else (snapped, true)
    else (x, false)
  else
    let testY := if vy > 0 then y + half_h else y - half_h
    let leftX := x - half_w + 1
    let rightX := x + half_w - 1
    if m.isSolid leftX testY ∨ m.isSolid rightX testY then
      let tileY : ℤ := ⌊testY / TILE_SIZE⌋
      let snapped := if vy > 0
        then (tileY : ℚ) * TILE_SIZE - half_h
        else ((tileY : ℚ) + 1) * TILE_SIZE + half_h
      (snapped, true)
    else (y, false)

/-! ## `PhysicsSystem.update` (`src/core/PhysicsSystem.ts`), per entity

The per-entity body state (components `Position`, `VelocityX/Y`, `Width`,
`Height`, `OnGround`, `OnLadder`) is gathered in `Body`; one iteration of
the update loop is `updateBody`.  `landedEvent` is the payload `velocity`
of the `entity/landed` event when one is emitted. -/

structure Body where
  x : ℚ
  y : ℚ
  vx : ℚ
  vy : ℚ
  w : ℚ
  h : ℚ
  onGround : Bool
  onLadder : Bool

structure StepResult where
  body : Body
  prevX : ℚ
  prevY : ℚ
  landedEvent : Option ℚ

def applyGravity (onLadder : Bool) (vy : ℚ) : ℚ :=
  if onLadder then vy
  else
    let vy1 := vy + GRAVITY
    if vy1 > MAX_FALL_SPEED then MAX_FALL_SPEED else vy1

def updateBody (m : TileCollisionMap) (b : Body) : StepResult :=
  let vy1 := applyGravity b.onLadder b.vy
  let prevX := b.x
  let prevY := b.y
  let newX := b.x + b.vx
  let newY := b.y + vy1
  let rx := resolveAxis m newX b.y b.vx 0 b.w b.h true
  let x1 := rx.1
  let vx1 := if rx.2 then 0 else b.vx
  let ry := resolveAxis m x1 newY 0 vy1 b.w b.h false
  let y1 := ry.1
  if ry.2 then
    if vy1 > 0 then
      { body := { x := x1, y := y1, vx := vx1, vy := 0, w := b.w, h := b.h,
                  onGround := true, onLadder := b.onLadder },
        prevX := prevX, prevY := prevY,
        landedEvent := if ¬ b.onGround then some vy1 else none }
    else
      { body := { x := x1, y := y1, vx := vx1, vy := 0, w := b.w, h := b.h,
                  onGround := b.onGround, onLadder := b.onLadder },
        prevX := prevX, prevY := prevY, landedEvent := none }
  else
    { body := { x := x1, y := y1, vx := vx1, vy := vy1, w := b.w, h := b.h,
                onGround := false, onLadder := b.onLadder },
      prevX := prevX, prevY := prevY, landedEvent := none }

/-! ## `GameLoop.tick` (`src/core/GameLoop.ts`)

`MAX_ACCUMULATOR_MS = 200`, `logicInterval = 1000 / logicTickRate`.  The
`while (accumulator >= logicInterval)` loop is modelled by the
fuel-indexed `drain`; each iteration records the `dt` value passed to
`onLogicTick`, namely `logicInterval / 1000` seconds.  The wrapper
`gameTick` supplies `⌊acc / interval⌋.toNat + 1` units of fuel, which
exceeds the number of loop iterations whenever the interval is positive
(proved in `drain_eq`), so the model agrees with the unbounded loop. -/

def MAX_ACCUMULATOR_MS : ℚ := 200

def clampFrameTime (ft : ℚ) : ℚ :=
  if ft > MAX_ACCUMULATOR_MS then MAX_ACCUMULATOR_MS else ft

def drain : ℕ → ℚ → ℚ → ℚ × List ℚ
  | 0, acc, _ => (acc, [])
  | fuel + 1, acc, interval =>
    if interval ≤ acc then
      let r := drain fuel (acc - interval) interval
      (r.1, interval / 1000 :: r.2)
    else (acc, [])

def gameTick (acc prev now interval : ℚ) : ℚ × List ℚ :=
  let ft := clampFrameTime (now - prev)
  let acc1 := acc + ft
  drain ((⌊acc1 / interval⌋).toNat + 1) acc1 interval

/-! ## `PidLoader.decompressRLE` (`src/parsers/PidLoader.ts`)

The output `Uint8Array(expectedPixels)` together with the write cursor
`dstPos` is modelled by the list of bytes written so far: the array always
equals that list followed by zero padding, which `decompressRLE`
reconstitutes.  Reads past the end of `src` yield JS `undefined`, which
every `Uint8Array` store coerces to 0 — modelled by `List.getD _ _ 0`.
The loop consumes at least one source byte per iteration and stops once
`srcPos` reaches the end, so `src.length + 1` units of fuel always
suffice (`rleLoop` only returns early through the same guards as the
source). -/

def rleLoop (src : List ℕ) (expected : ℕ) : ℕ → ℕ → ℕ → List ℕ
  | 0, _, _ => []
  | fuel + 1, srcPos, dstPos =>
    if dstPos < expected ∧ srcPos < src.length then
      let control := src.getD srcPos 0
      if control ≤ 0x7F then
        -- run of (control + 1) copies of the next byte, capped at `expected`
        let count := control + 1
        let value := src.getD (srcPos + 1) 0
        let n := min count (expected - dstPos)
        List.replicate n value ++ rleLoop src expected fuel (srcPos + 2) (dstPos + n)
      else
        -- literal copy of (control - 0x80 + 1) bytes, capped at `expected`
        -- and at the end of the source
        let count := control - 0x80 + 1
        let n := min count (min (expected - dstPos) (src.length - (srcPos + 1)))
        ((src.drop (srcPos + 1)).take n) ++
          rleLoop src expected fuel (srcPos + 1 + n) (dstPos + n)
    else []

def rleWritten (src : List ℕ) (srcOffset expected : ℕ) : List ℕ :=
  rleLoop src expected (src.length + 1) srcOffset 0

def decompressRLE (src : List ℕ) (srcOffset expected : ℕ) : List ℕ :=
  let written := rleWritten src srcOffset expected
  written ++ List.replicate (expected - written.length) 0

/-! ## Little-endian byte readers

`DataView.getUintNN(off, true)` on a buffer modelled as `List ℕ`.  The
callers below guard buffer length exactly where the original reads would
raise `RangeError`, so the `getD` default is never observable. -/

def readU16LE (raw : List ℕ) (off : ℕ) : ℕ :=
  raw.getD off 0 + 256 * raw.getD (off + 1) 0

def readU32LE (raw : List ℕ) (off : ℕ) : ℕ :=
  raw.getD off 0 + 256 * raw.getD (off + 1) 0 +
    65536 * raw.getD (off + 2) 0 + 16777216 * raw.getD (off + 3) 0

def toI16 (u : ℕ) : ℤ := if u < 2 ^ 15 then (u : ℤ) else (u : ℤ) - 2 ^ 16

def toI32 (u : ℕ) : ℤ := if u < 2 ^ 31 then (u : ℤ) else (u : ℤ) - 2 ^ 32

def readI32LE (raw : List ℕ) (off : ℕ) : ℤ := toI32 (readU32LE raw off)

/-! ## `PidLoader.parse` (`src/parsers/PidLoader.ts`)

The flag word has bit 0 = ColorKeyPresent, bit 1 = Compressed, bit 2 =
PaletteEmbedded.  `pidConvert` is the palette-to-RGBA loop; an index read
past the end of the decoded index buffer is JS `undefined` (`Option.none`
here), for which the color-key test `undefined === 0` is false and the
palette lookup stores coerce to 0 with alpha 255. -/

def PID_FLAG_COLOR_KEY : ℕ := 0x01
def PID_FLAG_COMPRESSED : ℕ := 0x02
def PID_FLAG_HAS_PALETTE : ℕ := 0x04

def pidPixel (hasColorKey : Bool) (palette : List ℕ) (idx? : Option ℕ) :
    List ℕ :=
  match idx? with
  | some idx =>
    if hasColorKey ∧ idx = 0 then [0, 0, 0, 0]
    else [palette.getD (idx * 3) 0, palette.getD (idx * 3 + 1) 0,
          palette.getD (idx * 3 + 2) 0, 255]
  | none => [0, 0, 0, 255]

def pidConvert (hasColorKey : Bool) (palette indices : List ℕ)
    (pixelCount : ℕ) : List ℕ :=
  ((List.range pixelCount).map
    (fun i => pidPixel hasColorKey palette (indices.get? i))).flatten

def pidHasColorKey (flags : ℕ) : Bool :=
  decide ((flags &&& PID_FLAG_COLOR_KEY) ≠ 0)

def pidActivePalette (flags : ℕ) (defaultPal afterHeader : List ℕ) : List ℕ :=
  if (flags &&& PID_FLAG_HAS_PALETTE) ≠ 0 then afterHeader.take 768 else defaultPal

/-- Value of `cursor - 0x10` when pixel data starts: 768 when a private
palette was consumed first, 0 otherwise. -/
def pidCursor (flags : ℕ) : ℕ :=
  if (flags &&& PID_FLAG_HAS_PALETTE) ≠ 0 then 768 else 0

def pidIndices (flags : ℕ) (afterHeader : List ℕ) (pixelCount : ℕ) : List ℕ :=
  if (flags &&& PID_FLAG_COMPRESSED) ≠ 0 then
    decompressRLE afterHeader (pidCursor flags) pixelCount
  else (afterHeader.drop (pidCursor flags)).take pixelCount

def pidParsePixels (flags : ℕ) (defaultPal afterHeader : List ℕ)
    (width height : ℕ) : List ℕ :=
  pidConvert (pidHasColorKey flags)
    (pidActivePalette flags defaultPal afterHeader)
    (pidIndices flags afterHeader (width * height)) (width * height)

structure PidFrame where
  width : ℕ
  height : ℕ
  offsetX : ℤ
  offsetY : ℤ
  flags : ℕ
  pixels : List ℕ

inductive PidError where
  | invalidMagic
  | rangeError      -- untyped RangeError raised by a DataView read
deriving DecidableEq

def pidMagicOk (raw : List ℕ) : Bool :=
  raw.getD 0 0 = 0x50 ∧ raw.getD 1 0 = 0x49 ∧ raw.getD 2 0 = 0x44  -- "PID"

def pidParse (raw defaultPal : List ℕ) : Except PidError PidFrame :=
  if ¬ pidMagicOk raw then .error .invalidMagic
  else if raw.length < 16 then .error .rangeError
  else
    let width := readU16LE raw 0x04
    let height := readU16LE raw 0x06
    let offsetX := toI16 (readU16LE raw 0x08)
    let offsetY := toI16 (readU16LE raw 0x0A)
    let flags := readU32LE raw 0x0C
    .ok { width := width, height := height, offsetX := offsetX,
          offsetY := offsetY, flags := flags,
          pixels := pidParsePixels flags defaultPal (raw.drop 0x10) width height }

/-! ## `RezLoader.parse` header validation (`src/parsers/RezLoader.ts`)

Only the header stage is relevant to the claims under study: the 3-byte
signature is compared against exactly the two strings `"REZ"` and
`"rez"`; on mismatch a typed `RezParseError` is thrown (`invalidMagic`).
A buffer shorter than the `DataView` reads raises an untyped
`RangeError` before / after the signature test, in source order. -/

inductive RezFailure where
  | invalidMagic    -- typed RezParseError
  | rangeError      -- untyped RangeError raised by a DataView read
deriving DecidableEq

def rezMagicAccepted (m0 m1 m2 : ℕ) : Bool :=
  (m0 = 0x52 ∧ m1 = 0x45 ∧ m2 = 0x5A) ∨ (m0 = 0x72 ∧ m1 = 0x65 ∧ m2 = 0x7A)

/-- Modelled from the spec: the predicate "the 3 ASCII bytes at offset 0
spell REZ case-insensitively", used only to compare the code's actual
acceptance condition against the claim's wording. -/
def spellsREZCaseInsensitive (m0 m1 m2 : ℕ) : Bool :=
  (m0 = 0x52 ∨ m0 = 0x72) ∧ (m1 = 0x45 ∨ m1 = 0x65) ∧ (m2 = 0x5A ∨ m2 = 0x7A)

def rezParseHeader (raw : List ℕ) : Except RezFailure (ℕ × ℕ) :=
  if raw.length < 4 then .error .rangeError  -- view.getUint32(0, false)
  else if ¬ rezMagicAccepted (raw.getD 0 0) (raw.getD 1 0) (raw.getD 2 0) then
    .error .invalidMagic
  else if raw.length < 12 then .error .rangeError  -- version / root-offset reads
  else .ok (readU32LE raw 0x04, readU32LE raw 0x08)

/-! ## `WwdLoader` (`src/parsers/WwdLoader.ts`)

`WwdFailure.runtimeError` models any untyped JavaScript runtime error
(`RangeError` from a `DataView`/typed-array constructor, or the
`TypeError` raised by `buildCollisionMap` when it dereferences
`layers[1] ?? layers[0]` on a level with no layers).  `invalidMagic` is
the only typed parse error the loader throws. -/

inductive WwdFailure where
  | invalidMagic
  | runtimeError
deriving DecidableEq

def LAYER_HEADER_SIZE : ℕ := 52
def OBJECT_ENTRY_SIZE : ℕ := 360
def MAX_LAYERS : ℕ := 8

/-- `WwdLoader.readString`: bytes of the null-terminated ASCII string of at
most `maxLen` bytes starting at `off` (clipped to the buffer). -/
def readWwdString (raw : List ℕ) (off maxLen : ℕ) : List ℕ :=
  ((raw.drop off).take maxLen).takeWhile (fun b => b ≠ 0)

/-- `Int32Array` contents at byte offset `off`, `n` elements, little-endian
(host order of every platform the engine targets). -/
def readInt32ArrayLE (raw : List ℕ) (off n : ℕ) : List ℤ :=
  (List.range n).map (fun i => readI32LE raw (off + 4 * i))

structure WwdLayerM where
  name : List ℕ
  flags : ℕ
  fillTileId : ℤ
  tilesWide : ℤ
  tilesHigh : ℤ
  tileWidth : ℤ
  tileHeight : ℤ
  moveXPercent : ℤ
  moveYPercent : ℤ
  tiles : List ℤ

def parseLayerHeader (raw : List ℕ) (base : ℕ) : Except WwdFailure WwdLayerM :=
  -- DataView reads cover [base, base+0x44); a shorter buffer raises RangeError
  if raw.length < base + 0x44 then .error .runtimeError
  else
    let flags := readU32LE raw (base + 0x00)
    let name := readWwdString raw (base + 0x04) 32
    let fillTileId := readI32LE raw (base + 0x24)
    let tilesWide := readI32LE raw (base + 0x28)
    let tilesHigh := readI32LE raw (base + 0x2C)
    let tileWidth := readI32LE raw (base + 0x30)
    let tileHeight := readI32LE raw (base + 0x34)
    let moveXPercent := readI32LE raw (base + 0x38)
    let moveYPercent := readI32LE raw (base + 0x3C)
    let tilesOffset := readU32LE raw (base + 0x40)
    let tileCount := tilesWide * tilesHigh
    -- new Int32Array(buffer, tilesOffset, tileCount) raises RangeError on a
    -- negative length, a misaligned offset, or a view past the buffer end
    if tileCount < 0 ∨ tilesOffset % 4 ≠ 0 ∨
        (tilesOffset : ℤ) + 4 * tileCount > (raw.length : ℤ) then
      .error .runtimeError
    else
      .ok { name := name, flags := flags, fillTileId := fillTileId,
            tilesWide := tilesWide, tilesHigh := tilesHigh,
            tileWidth := tileWidth, tileHeight := tileHeight,
            moveXPercent := moveXPercent, moveYPercent := moveYPercent,
            tiles := readInt32ArrayLE raw tilesOffset tileCount.toNat }

structure WwdObjectM where
  id : ℤ
  name : List ℕ
  logic : List ℕ
  imageSet : List ℕ
  animation : List ℕ
  x : ℤ
  y : ℤ
  z : ℤ
  width : ℤ
  height : ℤ
  speed : ℤ
  points : ℤ
  health : ℤ
  damage : ℤ
  smarts : ℤ
  minX : ℤ
  maxX : ℤ
  minY : ℤ
  maxY : ℤ
  moveRectMinX : ℤ
  moveRectMaxX : ℤ
  moveRectMinY : ℤ
  moveRectMaxY : ℤ
  userValue1 : ℤ
  userValue2 : ℤ
  userValue3 : ℤ
  userValue4 : ℤ
  userValue5 : ℤ
  userValue6 : ℤ
  userValue7 : ℤ
  userValue8 : ℤ
  addFlags : ℕ
  dynamicFlags : ℕ
  drawFlags : ℕ
  userFlags : ℕ
  type : ℤ
  typeFlags : ℕ

def parseObject (raw : List ℕ) (base : ℕ) : WwdObjectM :=
  { id := readI32LE raw (base + 0x00),
    name := readWwdString raw (base + 0x04) 32,
    logic := readWwdString raw (base + 0x24) 32,
    imageSet := readWwdString raw (base + 0x44) 128,
    animation := readWwdString raw (base + 0xC4) 32,
    x := readI32LE raw (base + 0xE4),
    y := readI32LE raw (base + 0xE8),
    z := readI32LE raw (base + 0xEC),
    width := readI32LE raw (base + 0xF0),
    height := readI32LE raw (base + 0xF4),
    speed := readI32LE raw (base + 0xF8),
    points := readI32LE raw (base + 0xFC),
    health := readI32LE raw (base + 0x100),
    damage := readI32LE raw (base + 0x104),
    smarts := readI32LE raw (base + 0x108),
    minX := readI32LE raw (base + 0x10C),
    maxX := readI32LE raw (base + 0x110),
    minY := readI32LE raw (base + 0x114),
    maxY := readI32LE raw (base + 0x118),
    moveRectMinX := readI32LE raw (base + 0x11C),
    moveRectMaxX := readI32LE raw (base + 0x120),
    moveRectMinY := readI32LE raw (base + 0x124),
    moveRectMaxY := readI32LE raw (base + 0x128),
    userValue1 := readI32LE raw (base + 0x12C),
    userValue2 := readI32LE raw (base + 0x130),
    userValue3 := readI32LE raw (base + 0x134),
    userValue4 := readI32LE raw (base + 0x138),
    userValue5 := readI32LE raw (base + 0x13C),
    userValue6 := readI32LE raw (base + 0x140),
    userValue7 := readI32LE raw (base + 0x144),
    userValue8 := readI32LE raw (base + 0x148),
    addFlags := readU32LE raw (base + 0x14C),
    dynamicFlags := readU32LE raw (base + 0x150),
    drawFlags := readU32LE raw (base + 0x154),
    userFlags := readU32LE raw (base + 0x158),
    type := readI32LE raw (base + 0x15C),
    typeFlags := readU32LE raw (base + 0x160) }

/-- The object loop: `i` counts from 0; the loop breaks (non-fatally) as
soon as the next 360-byte record would read past the buffer end. -/
def parseObjects (raw : List ℕ) (objectsOffset : ℕ) : ℕ → ℕ → List WwdObjectM
  | _, 0 => []
  | i, k + 1 =>
    let objBase := objectsOffset + i * OBJECT_ENTRY_SIZE
    if objBase + OBJECT_ENTRY_SIZE > raw.length then []
    else parseObject raw objBase :: parseObjects raw objectsOffset (i + 1) k

/-- Models the JavaScript expression `(tileId & 0x80000000) !== 0`, where
`tileId` holds a signed 32-bit value: the bitwise AND operates on the
unsigned 32-bit representation, so the test asks for bit 31. -/
def int32SignBitSet (v : ℤ) : Bool := (v.emod (2 ^ 32)).toNat.testBit 31

/-- `WwdLoader.buildCollisionMap`: row-major double loop over the layer
grid; `buildCell` is one iteration of the inner loop.  A negative tile id
leaves the cell at its default (`continue`); a missing tile id
(`undefined`, impossible for parsed layers whose `tiles` array has
exactly `tilesWide*tilesHigh` entries) fails both the `< 0` test and the
solidity tests and stores 0. -/
def buildCell (layer : WwdLayerM) (row : ℕ) (m : TileCollisionMap)
    (col : ℕ) : TileCollisionMap :=
  match layer.tiles.get? (row * layer.tilesWide.toNat + col) with
  | none => m.set (col : ℤ) (row : ℤ) 0
  | some tileId =>
    if tileId < 0 then m
    else
      m.set (col : ℤ) (row : ℤ)
        (if int32SignBitSet tileId ∨ tileId = 0 then 1 else 0)

def buildRow (layer : WwdLayerM) (m : TileCollisionMap) (row : ℕ) :
    TileCollisionMap :=
  (List.range layer.tilesWide.toNat).foldl (buildCell layer row) m

def buildCollisionMap (layer : WwdLayerM) : TileCollisionMap :=
  (List.range layer.tilesHigh.toNat).foldl (buildRow layer)
    (mkTileCollisionMap layer.tilesWide layer.tilesHigh (layer.tileWidth : ℚ))

/-- The expression `layers[1] ?? layers[0]` selecting the action layer. -/
def selectActionLayer (layers : List WwdLayerM) : Option WwdLayerM :=
  layers.get? 1 <|> layers.get? 0

structure WwdLevelM where
  version : ℕ
  flags : ℕ
  name : List ℕ
  author : List ℕ
  birth : List ℕ
  rezFile : List ℕ
  imageDir : List ℕ
  palRez : List ℕ
  startX : ℤ
  startY : ℤ
  launchApp : List ℕ
  imageSet1 : List ℕ
  imageSet2 : List ℕ
  imageSet3 : List ℕ
  imageSet4 : List ℕ
  pfx1 : List ℕ
  pfx2 : List ℕ
  pfx3 : List ℕ
  pfx4 : List ℕ
  layers : List WwdLayerM
  objects : List WwdObjectM
  collisionMap : TileCollisionMap

def wwdMagicOk (raw : List ℕ) : Bool :=
  (raw.getD 0 0 = 0x57 ∧ raw.getD 1 0 = 0x4F ∧
   raw.getD 2 0 = 0x52 ∧ raw.getD 3 0 = 0x4C) ∨   -- "WORL"
  (raw.getD 0 0 = 0x4C ∧ raw.getD 1 0 = 0x45 ∧
   raw.getD 2 0 = 0x56 ∧ raw.getD 3 0 = 0x4C)     -- "LEVL"

def wwdParse (raw : List ℕ) : Except WwdFailure WwdLevelM :=
  if raw.length < 4 then .error .runtimeError  -- view.getUint32(0, false)
  else if ¬ wwdMagicOk raw then .error .invalidMagic
  else if raw.length < 0x5E8 then .error .runtimeError  -- fixed header reads
  else
    let layerCount := readU32LE raw 0x5D8
    let numObjects := readU32LE raw 0x5DC
    let layerOffset := readU32LE raw 0x5E0
    let objectsOffset := readU32LE raw 0x5E4
    match (List.range (min layerCount MAX_LAYERS)).mapM
        (fun i => parseLayerHeader raw (layerOffset + i * LAYER_HEADER_SIZE)) with
    | .error e => .error e
    | .ok layers =>
      let objects := parseObjects raw objectsOffset 0 numObjects
      -- buildCollisionMap(layers[1] ?? layers[0]): dereferencing the layer
      -- fields of `undefined` raises a TypeError when no layer was parsed
      match selectActionLayer layers with
      | none => .error .runtimeError
      | some actionLayer =>
        .ok { version := readU32LE raw 0x04,
              flags := readU32LE raw 0x08,
              name := readWwdString raw 0x10 64,
              author := readWwdString raw 0x50 64,
              birth := readWwdString raw 0x90 64,
              rezFile := readWwdString raw 0xD0 256,
              imageDir := readWwdString raw 0x1D0 128,
              palRez := readWwdString raw 0x250 128,
              startX := readI32LE raw 0x2D0,
              startY := readI32LE raw 0x2D4,
              launchApp := readWwdString raw 0x2D8 128,
              imageSet1 := readWwdString raw 0x358 128,
              imageSet2 := readWwdString raw 0x3D8 128,
              imageSet3 := readWwdString raw 0x458 128,
              imageSet4 := readWwdString raw 0x4D8 128,
              pfx1 := readWwdString raw 0x558 32,
              pfx2 := readWwdString raw 0x578 32,
              pfx3 := readWwdString raw 0x598 32,
              pfx4 := readWwdString raw 0x5B8 32,
              layers := layers,
              objects := objects,
              collisionMap := buildCollisionMap actionLayer }

/-! ## Concrete data and claim-side formulas used by the theorems below

`hTestX`/`hSnap`/`vTestY`/`vSnap` spell out the probe points and snap
positions of `resolveAxis`; `verticalBlocked` is the blocked flag of the
vertical resolution exactly as `updateBody` computes it.  The `ex...`
declarations are the concrete inputs of the witnesses and
counterexamples. -/

/-- Concrete palette used by the C8 witness: entry 5 is (10, 20, 30). -/
def exPal : List ℕ := List.replicate 15 0 ++ [10, 20, 30]

/-- The blocked flag of the vertical resolution exactly as `updateBody`
computes it (at the horizontally-resolved x, the integrated y, and the
post-gravity vertical velocity). -/
def verticalBlocked (m : TileCollisionMap) (b : Body) : Bool :=
  (resolveAxis m (resolveAxis m (b.x + b.vx) b.y b.vx 0 b.w b.h true).1
    (b.y + applyGravity b.onLadder b.vy) 0 (applyGravity b.onLadder b.vy)
    b.w b.h false).2

/-- Collision map of the C5 counterexample: a 2x2 grid whose top row
(cells (0,0) and (1,0), flat indices 0 and 1) is solid. -/
def exMapC5 : TileCollisionMap :=
  { cols := 2, rows := 2, tileSize := 64,
    data := fun i => if i = 0 ∨ i = 1 then 1 else 0 }

/-- Body of the C5 counterexample: grounded, on a ladder (so gravity is
skipped), moving upward with vy = -1, head touching the solid top row. -/
def exBodyC5 : Body :=
  { x := 32, y := 137/2, vx := 0, vy := -1, w := 10, h := 10,
    onGround := true, onLadder := true }

/-- Body of the C5 witness: airborne and falling inside a 1x1 world whose
out-of-range border is solid. -/
def exBodyC5W : Body :=
  { x := 32, y := 70, vx := 0, vy := 5, w := 10, h := 10,
    onGround := false, onLadder := false }

/-- Leading-edge x probed by the horizontal resolution. -/
def hTestX (x vx w : ℚ) : ℚ := if vx > 0 then x + w / 2 else x - w / 2

/-- Horizontal snap position: trailing tile boundary offset by half the
width plus one pixel of clearance. -/
def hSnap (x vx w : ℚ) : ℚ :=
  if vx > 0 then (⌊hTestX x vx w / TILE_SIZE⌋ : ℚ) * TILE_SIZE - w / 2 - 1
  else ((⌊hTestX x vx w / TILE_SIZE⌋ : ℚ) + 1) * TILE_SIZE + w / 2 + 1

/-- Leading-edge y probed by the vertical resolution. -/
def vTestY (y vy h : ℚ) : ℚ := if vy > 0 then y + h / 2 else y - h / 2

/-- Vertical snap position: trailing tile boundary offset by exactly half
the height — no clearance pixel. -/
def vSnap (y vy h : ℚ) : ℚ :=
  if vy > 0 then (⌊vTestY y vy h / TILE_SIZE⌋ : ℚ) * TILE_SIZE - h / 2
  else ((⌊vTestY y vy h / TILE_SIZE⌋ : ℚ) + 1) * TILE_SIZE + h / 2

/-- Collision map of the C1 counterexample: a 1x1 world, every cell
empty, so only the solid out-of-range border blocks. -/
def exMapC1 : TileCollisionMap := mkTileCollisionMap 1 1 64

/-- Concrete layer for the C2 witness: 2x2 grid with tiles
[-1, 0, 5, -2147483648]: empty, solid-because-zero, passable, and
empty-because-negative (despite its sign bit). -/
def exLayerC2 : WwdLayerM :=
  { name := [], flags := 0, fillTileId := 0, tilesWide := 2, tilesHigh := 2,
    tileWidth := 64, tileHeight := 64, moveXPercent := 100,
    moveYPercent := 100, tiles := [-1, 0, 5, -2147483648] }

/-- Buffer for the C10 witness: magic "WORL" followed by zeros — in
particular the layer-count field at offset 0x5D8 is zero. -/
def exRawC10 : List ℕ := [0x57, 0x4F, 0x52, 0x4C] ++ List.replicate 1532 0

/-! ## Helper lemmas about `TileCollisionMap` -/

theorem TileCollisionMap.set_cols (m : TileCollisionMap) (col row : ℤ) (attr : ℕ) :
    (m.set col row attr).cols = m.cols := by
  unfold TileCollisionMap.set; split <;> rfl

theorem TileCollisionMap.set_rows (m : TileCollisionMap) (col row : ℤ) (attr : ℕ) :
    (m.set col row attr).rows = m.rows := by
  unfold TileCollisionMap.set; split <;> rfl

/-- The flat index `row * cols + col` is injective on in-range cells. -/
theorem flat_index_inj (cols c r c2 r2 : ℤ) (hc0 : 0 ≤ c) (hc : c < cols)
    (hc20 : 0 ≤ c2) (hc2 : c2 < cols) (h : r * cols + c = r2 * cols + c2) :
    c = c2 ∧ r = r2 := by
  have hcols : 0 < cols := lt_of_le_of_lt hc0 hc
  have key : (r - r2) * cols = c2 - c := by ring_nf; linarith
  have hr : r = r2 := by
    rcases lt_trichotomy r r2 with hlt | heq | hgt
    · have h1 : r - r2 ≤ -1 := by omega
      have h2 : (r - r2) * cols ≤ (-1) * cols :=
        mul_le_mul_of_nonneg_right h1 (le_of_lt hcols)
      omega
    · exact heq
    · have h1 : 1 ≤ r - r2 := by omega
      have h2 : (1 : ℤ) * cols ≤ (r - r2) * cols :=
        mul_le_mul_of_nonneg_right h1 (le_of_lt hcols)
      omega
  subst hr
  omega

theorem TileCollisionMap.get_eq (cols rows : ℤ) (ts : ℚ) (d : ℤ → ℕ)
    (col row : ℤ) :
    (TileCollisionMap.mk cols rows ts d).get col row =
      if col < 0 ∨ cols ≤ col ∨ row < 0 ∨ rows ≤ row then 1
      else d (row * cols + col) := rfl

theorem TileCollisionMap.set_eq (m : TileCollisionMap) (col row : ℤ)
    (attr : ℕ) :
    m.set col row attr =
      if col < 0 ∨ m.cols ≤ col ∨ row < 0 ∨ m.rows ≤ row then m
      else TileCollisionMap.mk m.cols m.rows m.tileSize
        (Function.update m.data (row * m.cols + col) attr) := rfl

theorem TileCollisionMap.get_oob (m : TileCollisionMap) (col row : ℤ)
    (h : ¬ m.inRange col row) : m.get col row = 1 := by
  obtain ⟨cols, rows, ts, d⟩ := m
  unfold TileCollisionMap.inRange at h
  simp only at h
  rw [TileCollisionMap.get_eq, if_pos (by omega)]

theorem TileCollisionMap.get_mk (cols rows : ℤ) (ts : ℚ) (col row : ℤ)
    (h : (mkTileCollisionMap cols rows ts).inRange col row) :
    (mkTileCollisionMap cols rows ts).get col row = 0 := by
  unfold TileCollisionMap.inRange mkTileCollisionMap at h
  simp only at h
  unfold mkTileCollisionMap
  rw [TileCollisionMap.get_eq, if_neg (by omega)]

theorem TileCollisionMap.get_set_same (m : TileCollisionMap) (col row : ℤ)
    (attr : ℕ) (h : m.inRange col row) :
    (m.set col row attr).get col row = attr := by
  unfold TileCollisionMap.inRange at h
  rw [TileCollisionMap.set_eq, if_neg (by omega), TileCollisionMap.get_eq,
    if_neg (by omega)]
  simp [Function.update]

theorem TileCollisionMap.get_set_other (m : TileCollisionMap) (col row : ℤ)
    (attr : ℕ) (col2 row2 : ℤ) (h : (col, row) ≠ (col2, row2)) :
    (m.set col row attr).get col2 row2 = m.get col2 row2 := by
  rw [TileCollisionMap.set_eq]
  by_cases hset : col < 0 ∨ m.cols ≤ col ∨ row < 0 ∨ m.rows ≤ row
  · rw [if_pos hset]
  · rw [if_neg hset]
    obtain ⟨cols, rows, ts, d⟩ := m
    simp only at hset
    rw [TileCollisionMap.get_eq, TileCollisionMap.get_eq]
    by_cases hget : col2 < 0 ∨ cols ≤ col2 ∨ row2 < 0 ∨ rows ≤ row2
    · rw [if_pos hget, if_pos hget]
    · rw [if_neg hget, if_neg hget]
      have hne : row2 * cols + col2 ≠ row * cols + col := by
        intro heq
        rcases flat_index_inj cols col2 row2 col row (by omega) (by omega)
          (by omega) (by omega) heq with ⟨h1, h2⟩
        exact h (by rw [h1, h2])
      simp [Function.update, hne]

/-- C6: for every collision grid and every pair (col,row), `get` returns
Solid (1) whenever (col,row) lies outside [0,width)x[0,height); for every
in-range cell it returns exactly the attribute last stored there by `set`,
and Empty (0) for a cell of a freshly constructed grid that was never set. -/
theorem collision_grid_get_spec :
    (∀ (m : TileCollisionMap) (col row : ℤ),
        ¬ m.inRange col row → m.get col row = 1) ∧
    (∀ (cols rows : ℤ) (ts : ℚ) (col row : ℤ),
        (mkTileCollisionMap cols rows ts).inRange col row →
        (mkTileCollisionMap cols rows ts).get col row = 0) ∧
    (∀ (m : TileCollisionMap) (col row : ℤ) (attr : ℕ),
        m.inRange col row → (m.set col row attr).get col row = attr) ∧
    (∀ (m : TileCollisionMap) (col row : ℤ) (attr : ℕ) (col2 row2 : ℤ),
        (col, row) ≠ (col2, row2) →
        (m.set col row attr).get col2 row2 = m.get col2 row2) :=
  ⟨TileCollisionMap.get_oob, TileCollisionMap.get_mk,
   TileCollisionMap.get_set_same, TileCollisionMap.get_set_other⟩

/-- Witness for C6 at the 2x2 grid: an out-of-range lookup is Solid, a
fresh cell is Empty, a set cell reads back, and setting one cell leaves
another unchanged. -/
theorem collision_grid_get_spec_witness :
    (mkTileCollisionMap 2 2 64).get (-1) 0 = 1 ∧
    (mkTileCollisionMap 2 2 64).get 0 0 = 0 ∧
    ((mkTileCollisionMap 2 2 64).set 1 0 3).get 1 0 = 3 ∧
    ((mkTileCollisionMap 2 2 64).set 1 0 3).get 0 1 =
      (mkTileCollisionMap 2 2 64).get 0 1 :=
  ⟨collision_grid_get_spec.1 (mkTileCollisionMap 2 2 64) (-1) 0 (by decide),
   collision_grid_get_spec.2.1 2 2 64 0 0 (by decide),
   collision_grid_get_spec.2.2.1 (mkTileCollisionMap 2 2 64) 1 0 3 (by decide),
   collision_grid_get_spec.2.2.2 (mkTileCollisionMap 2 2 64) 1 0 3 0 1 (by decide)⟩

/-- C9: the gravity term of a physics step leaves `velocity.y` unchanged
for a body on a ladder, and otherwise adds the gravity constant and clamps
the result to the maximum fall speed (`updateBody` feeds every subsequent
stage with `applyGravity b.onLadder b.vy`). -/
theorem gravity_term_spec :
    (∀ vy : ℚ, applyGravity true vy = vy) ∧
    (∀ vy : ℚ, applyGravity false vy = min (vy + GRAVITY) MAX_FALL_SPEED) ∧
    applyGravity true 5 = 5 := by
  refine ⟨fun vy => rfl, fun vy => ?_, rfl⟩
  show (if vy + GRAVITY > MAX_FALL_SPEED then MAX_FALL_SPEED else vy + GRAVITY) =
    min (vy + GRAVITY) MAX_FALL_SPEED
  rcases le_or_lt (vy + GRAVITY) MAX_FALL_SPEED with h | h
  · rw [if_neg (not_lt.mpr h), min_eq_left h]
  · rw [if_pos h, min_eq_right (le_of_lt h)]

/-! ## Helper lemmas about `decompressRLE` -/

theorem rleLoop_length_le (src : List ℕ) (expected fuel srcPos dstPos : ℕ) :
    (rleLoop src expected fuel srcPos dstPos).length ≤ expected - dstPos := by
  induction fuel generalizing srcPos dstPos with
  | zero => simp [rleLoop]
  | succ f ih =>
    simp only [rleLoop]
    split
    · split
      · have h1 := ih (srcPos + 2)
          (dstPos + min (src.getD srcPos 0 + 1) (expected - dstPos))
        simp only [List.length_append, List.length_replicate]
        omega
      · have h1 := ih
          (srcPos + 1 + min (src.getD srcPos 0 - 0x80 + 1)
            (min (expected - dstPos) (src.length - (srcPos + 1))))
          (dstPos + min (src.getD srcPos 0 - 0x80 + 1)
            (min (expected - dstPos) (src.length - (srcPos + 1))))
        simp only [List.length_append, List.length_take, List.length_drop]
        omega
    · simp

theorem rleWritten_length_le (src : List ℕ) (srcOffset expected : ℕ) :
    (rleWritten src srcOffset expected).length ≤ expected := by
  unfold rleWritten
  exact rleLoop_length_le src expected (src.length + 1) srcOffset 0

theorem decompressRLE_length (src : List ℕ) (srcOffset expected : ℕ) :
    (decompressRLE src srcOffset expected).length = expected := by
  have h := rleWritten_length_le src srcOffset expected
  simp only [decompressRLE, List.length_append, List.length_replicate]
  omega

theorem getD_replicate_zero (k j : ℕ) :
    (List.replicate k (0 : ℕ)).getD j 0 = 0 := by
  induction k generalizing j with
  | zero => simp
  | succ n ih =>
    cases j with
    | zero => simp [List.replicate_succ]
    | succ j =>
      rw [List.replicate_succ]
      exact ih j

/-- C3: run-length decoding is total by construction; its output always
has exactly the expected length, output positions at or past the final
write cursor (equal to `(rleWritten src off n).length`) keep the default
value 0, and the concrete stream from the specification decodes as
documented (control 0x02 emits byte 0x09 three times, control 0x81 copies
the next two bytes verbatim). -/
theorem rle_decode_spec :
    (∀ (src : List ℕ) (srcOffset expected : ℕ),
        (decompressRLE src srcOffset expected).length = expected) ∧
    (∀ (src : List ℕ) (srcOffset expected j : ℕ),
        (rleWritten src srcOffset expected).length ≤ j → j < expected →
        (decompressRLE src srcOffset expected).getD j 0 = 0) ∧
    decompressRLE [0x02, 0x09, 0x81, 0x07, 0x08] 0 5 = [9, 9, 9, 7, 8] := by
  refine ⟨decompressRLE_length, ?_, by decide⟩
  intro src srcOffset expected j h1 h2
  unfold decompressRLE
  rw [List.getD_append_right _ _ 0 j h1]
  exact getD_replicate_zero _ _

/-- Witness for C3: a truncated run byte stream (`[0x00, 0x05]` promises 1
byte and delivers it, then the source is exhausted with 2 of 3 pixels
unfilled) decodes to a full-length output with zero tail. -/
theorem rle_decode_spec_witness :
    (decompressRLE [0x00, 0x05] 0 3).length = 3 ∧
    (decompressRLE [0x00, 0x05] 0 3).getD 1 0 = 0 ∧
    (decompressRLE [0x00, 0x05] 0 3).getD 2 0 = 0 :=
  ⟨rle_decode_spec.1 [0x00, 0x05] 0 3,
   rle_decode_spec.2.1 [0x00, 0x05] 0 3 1 (by decide) (by decide),
   rle_decode_spec.2.1 [0x00, 0x05] 0 3 2 (by decide) (by decide)⟩

/-! ## Helper lemmas about the simulation clock -/

theorem drain_eq (fuel : ℕ) (acc interval : ℚ) (hpos : 0 < interval)
    (hacc : 0 ≤ acc) (hfuel : (⌊acc / interval⌋).toNat ≤ fuel) :
    drain fuel acc interval =
      (acc - (⌊acc / interval⌋ : ℚ) * interval,
       List.replicate (⌊acc / interval⌋).toNat (interval / 1000)) := by
  induction fuel generalizing acc with
  | zero =>
    have h0 : 0 ≤ acc / interval := div_nonneg hacc (le_of_lt hpos)
    have hge : 0 ≤ ⌊acc / interval⌋ := Int.floor_nonneg.mpr h0
    have hz : ⌊acc / interval⌋ = 0 := by omega
    simp [drain, hz]
  | succ f ih =>
    by_cases hc : interval ≤ acc
    · have h1 : (1 : ℚ) ≤ acc / interval := (one_le_div hpos).mpr hc
      have hfl1 : 1 ≤ ⌊acc / interval⌋ := Int.le_floor.mpr (by exact_mod_cast h1)
      have hne : interval ≠ 0 := ne_of_gt hpos
      have hsub : (acc - interval) / interval = acc / interval - 1 := by
        field_simp
      have hfloor : ⌊(acc - interval) / interval⌋ = ⌊acc / interval⌋ - 1 := by
        rw [hsub]
        exact_mod_cast Int.floor_sub_int (acc / interval) 1
      have hacc2 : 0 ≤ acc - interval := by linarith
      have hfuel2 : (⌊(acc - interval) / interval⌋).toNat ≤ f := by
        rw [hfloor]; omega
      have hr := ih (acc - interval) hacc2 hfuel2
      have htn : (⌊acc / interval⌋).toNat = (⌊acc / interval⌋ - 1).toNat + 1 := by
        omega
      simp only [drain, if_pos hc, hr, hfloor, htn, List.replicate_succ,
        Prod.mk.injEq]
      constructor
      · push_cast
        ring
      · trivial
    · have hlt : acc < interval := lt_of_not_le hc
      have h0 : 0 ≤ acc / interval := div_nonneg hacc (le_of_lt hpos)
      have hz : ⌊acc / interval⌋ = 0 :=
        Int.floor_eq_zero_iff.mpr ⟨h0, (div_lt_one hpos).mpr hlt⟩
      simp [drain, if_neg hc, hz]

/-- C4: one frame callback of the simulation clock clamps the frame time
to the 200 ms maximum, then runs exactly
floor((accumulator + clamped frame time) / stepDuration) logic steps, each
passed dt = stepDuration / 1000 seconds; the post-frame accumulator is
never negative, stays strictly below the step duration, and the resulting
interpolation factor alpha = accumulator / stepDuration lies in [0, 1). -/
theorem clock_step_spec (acc prev now interval : ℚ) (hpos : 0 < interval)
    (hacc : 0 ≤ acc) (hnow : prev ≤ now) :
    gameTick acc prev now interval =
      (acc + clampFrameTime (now - prev) -
         (⌊(acc + clampFrameTime (now - prev)) / interval⌋ : ℚ) * interval,
       List.replicate (⌊(acc + clampFrameTime (now - prev)) / interval⌋).toNat
         (interval / 1000)) ∧
    0 ≤ (gameTick acc prev now interval).1 ∧
    (gameTick acc prev now interval).1 < interval ∧
    0 ≤ (gameTick acc prev now interval).1 / interval ∧
    (gameTick acc prev now interval).1 / interval < 1 ∧
    clampFrameTime (now - prev) ≤ MAX_ACCUMULATOR_MS ∧
    (now - prev ≤ MAX_ACCUMULATOR_MS → clampFrameTime (now - prev) = now - prev) := by
  have hftnn : 0 ≤ clampFrameTime (now - prev) := by
    unfold clampFrameTime MAX_ACCUMULATOR_MS
    split
    · norm_num
    · linarith
  set acc1 := acc + clampFrameTime (now - prev) with hacc1
  have hacc1nn : 0 ≤ acc1 := by positivity
  have heq : gameTick acc prev now interval =
      (acc1 - (⌊acc1 / interval⌋ : ℚ) * interval,
       List.replicate (⌊acc1 / interval⌋).toNat (interval / 1000)) := by
    show drain ((⌊acc1 / interval⌋).toNat + 1) acc1 interval = _
    exact drain_eq _ _ _ hpos hacc1nn (by omega)
  have hlow : (⌊acc1 / interval⌋ : ℚ) * interval ≤ acc1 := by
    have h := Int.floor_le (acc1 / interval)
    calc (⌊acc1 / interval⌋ : ℚ) * interval ≤ acc1 / interval * interval :=
          mul_le_mul_of_nonneg_right h (le_of_lt hpos)
      _ = acc1 := div_mul_cancel₀ acc1 (ne_of_gt hpos)
  have hhigh : acc1 < ((⌊acc1 / interval⌋ : ℚ) + 1) * interval := by
    have h := Int.lt_floor_add_one (acc1 / interval)
    have h2 : acc1 / interval * interval < ((⌊acc1 / interval⌋ : ℚ) + 1) * interval :=
      mul_lt_mul_of_pos_right h hpos
    rwa [div_mul_cancel₀ acc1 (ne_of_gt hpos)] at h2
  have hr1 : 0 ≤ (gameTick acc prev now interval).1 := by
    rw [heq]; simp only; linarith
  have hr2 : (gameTick acc prev now interval).1 < interval := by
    rw [heq]; simp only; nlinarith
  refine ⟨heq, hr1, hr2, div_nonneg hr1 (le_of_lt hpos),
    (div_lt_one hpos).mpr hr2, ?_, ?_⟩
  · unfold clampFrameTime
    split
    · exact le_refl _
    · next hx => exact le_of_not_lt hx
  · intro hle
    unfold clampFrameTime
    rw [if_neg (not_lt.mpr hle)]

/-- Witness for C4: a frame of 100 ms with a 60 Hz step duration
(50/3 ms) runs exactly 6 logic steps, each with dt = 1/60 s, and leaves
an empty accumulator (alpha = 0). -/
theorem clock_step_spec_witness :
    gameTick 0 0 100 (50/3) = (0, List.replicate 6 (1/60)) := by
  have h := (clock_step_spec 0 0 100 (50/3) (by norm_num) (by norm_num)
    (by norm_num)).1
  rw [h]
  norm_num [clampFrameTime, MAX_ACCUMULATOR_MS, Prod.ext_iff]
  decide

/-! ## C7: the archive signature check -/

/-- C7 counterexample: the buffer starting with the mixed-case bytes
"Rez" spells REZ case-insensitively, yet the header check raises the
typed InvalidMagic parse error, refuting the claim that any combination
of upper- and lower-case letter forms is accepted. -/
theorem rez_magic_counterexample :
    spellsREZCaseInsensitive 0x52 0x65 0x7A = true ∧
    rezParseHeader [0x52, 0x65, 0x7A, 0x00, 0x01, 0x00, 0x00, 0x00,
        0x14, 0x00, 0x00, 0x00] = Except.error RezFailure.invalidMagic := by
  constructor
  · decide
  · rfl

/-- C7 amended: for every buffer long enough for the magic read, archive
loading fails with the typed InvalidMagic parse error if and only if the
3 bytes at offset 0 are neither exactly "REZ" (all upper case) nor
exactly "rez" (all lower case); mixed-case combinations are rejected.
Every accepted form does spell REZ case-insensitively. -/
theorem rez_magic_amended :
    (∀ raw : List ℕ, 4 ≤ raw.length →
      (rezParseHeader raw = Except.error RezFailure.invalidMagic ↔
        ¬ ((raw.getD 0 0 = 0x52 ∧ raw.getD 1 0 = 0x45 ∧ raw.getD 2 0 = 0x5A) ∨
           (raw.getD 0 0 = 0x72 ∧ raw.getD 1 0 = 0x65 ∧ raw.getD 2 0 = 0x7A)))) ∧
    (∀ m0 m1 m2 : ℕ, rezMagicAccepted m0 m1 m2 = true →
      spellsREZCaseInsensitive m0 m1 m2 = true) := by
  have hiff : ∀ m0 m1 m2 : ℕ, rezMagicAccepted m0 m1 m2 = true ↔
      ((m0 = 0x52 ∧ m1 = 0x45 ∧ m2 = 0x5A) ∨
       (m0 = 0x72 ∧ m1 = 0x65 ∧ m2 = 0x7A)) := by
    intro m0 m1 m2
    simp [rezMagicAccepted]
  constructor
  · intro raw hlen
    unfold rezParseHeader
    rw [if_neg (by omega)]
    by_cases hm : rezMagicAccepted (raw.getD 0 0) (raw.getD 1 0) (raw.getD 2 0) = true
    · rw [if_neg (not_not_intro hm)]
      constructor
      · intro h
        split at h <;> simp_all
      · intro hn
        exact absurd ((hiff _ _ _).mp hm) hn
    · rw [if_pos hm]
      constructor
      · intro _ hd
        exact hm ((hiff _ _ _).mpr hd)
      · intro _
        rfl
  · intro m0 m1 m2 h
    have h2 := (hiff m0 m1 m2).mp h
    simp only [spellsREZCaseInsensitive, decide_eq_true_eq]
    tauto

/-- Witness for C7: the exact byte forms "REZ" and "rez" pass the check
(the parser does not raise InvalidMagic on them), while a valid-length
buffer with magic "XYZ" does fail with InvalidMagic. -/
theorem rez_magic_amended_witness :
    rezParseHeader [0x52, 0x45, 0x5A, 0x00, 0x01, 0x00, 0x00, 0x00,
        0x14, 0x00, 0x00, 0x00] ≠ Except.error RezFailure.invalidMagic ∧
    rezParseHeader [0x72, 0x65, 0x7A, 0x00, 0x01, 0x00, 0x00, 0x00,
        0x14, 0x00, 0x00, 0x00] ≠ Except.error RezFailure.invalidMagic ∧
    rezParseHeader [0x58, 0x59, 0x5A, 0x00, 0x01, 0x00, 0x00, 0x00,
        0x14, 0x00, 0x00, 0x00] = Except.error RezFailure.invalidMagic ∧
    spellsREZCaseInsensitive 0x52 0x45 0x5A = true := by
  refine ⟨?_, ?_, ?_, ?_⟩
  · intro h
    exact absurd ((rez_magic_amended.1 _ (by decide)).mp h) (by decide)
  · intro h
    exact absurd ((rez_magic_amended.1 _ (by decide)).mp h) (by decide)
  · exact (rez_magic_amended.1 _ (by decide)).mpr (by decide)
  · exact rez_magic_amended.2 0x52 0x45 0x5A (by decide)

/-! ## Helper lemmas for the sprite decoder -/

theorem pidPixel_length (ck : Bool) (pal : List ℕ) (i : Option ℕ) :
    (pidPixel ck pal i).length = 4 := by
  rcases i with _ | idx
  · rfl
  · simp only [pidPixel]
    split <;> rfl

theorem flatten_length_four (l : List (List ℕ)) (h : ∀ x ∈ l, x.length = 4) :
    l.flatten.length = 4 * l.length := by
  induction l with
  | nil => simp
  | cons a t ih =>
    simp only [List.flatten_cons, List.length_append, List.length_cons]
    rw [h a (by simp), ih (fun x hx => h x (by simp [hx]))]
    ring

theorem flatten_chunk_four (l : List (List ℕ)) (i : ℕ)
    (h : ∀ x ∈ l, x.length = 4) (hi : i < l.length) :
    (l.flatten.drop (4 * i)).take 4 = l.getD i [] := by
  induction l generalizing i with
  | nil => simp at hi
  | cons a t ih =>
    have ha : a.length = 4 := h a (by simp)
    cases i with
    | zero =>
      simp only [List.flatten_cons, Nat.mul_zero, List.drop_zero,
        List.getD_cons_zero]
      rw [← ha, List.take_left]
    | succ i =>
      simp only [List.flatten_cons, List.getD_cons_succ]
      have hsplit : 4 * (i + 1) = a.length + 4 * i := by rw [ha]; ring
      rw [hsplit, List.drop_append]
      exact ih i (fun x hx => h x (List.mem_cons_of_mem a hx)) (by simpa using hi)

theorem pidConvert_length (ck : Bool) (pal indices : List ℕ)
    (pixelCount : ℕ) :
    (pidConvert ck pal indices pixelCount).length = pixelCount * 4 := by
  unfold pidConvert
  rw [flatten_length_four]
  · simp [Nat.mul_comm]
  · intro x hx
    simp only [List.mem_map] at hx
    obtain ⟨i, _, rfl⟩ := hx
    exact pidPixel_length ck pal (indices.get? i)

theorem pidConvert_chunk (ck : Bool) (pal indices : List ℕ)
    (pixelCount i : ℕ) (hi : i < pixelCount) :
    ((pidConvert ck pal indices pixelCount).drop (4 * i)).take 4 =
      pidPixel ck pal (indices.get? i) := by
  unfold pidConvert
  rw [flatten_chunk_four]
  · rw [List.getD_eq_getElem?_getD]
    simp [List.getElem?_map, List.getElem?_range hi]
  · intro x hx
    simp only [List.mem_map] at hx
    obtain ⟨j, _, rfl⟩ := hx
    exact pidPixel_length ck pal (indices.get? j)
  · simpa using hi

/-- C8: the decoded RGBA buffer of a sprite frame has length
width*height*4 exactly; a pixel whose palette index is 0 while the
ColorKeyPresent flag is set decodes to the transparent pixel (0,0,0,0),
and every other pixel decodes to the active palette entry (the embedded
palette when the PaletteEmbedded flag is set, else the caller-supplied
one) at that index with alpha 255.  `pidParse` produces exactly this
buffer for every successfully parsed frame. -/
theorem sprite_decode_spec :
    (∀ (flags : ℕ) (defaultPal afterHeader : List ℕ) (width height : ℕ),
      (pidParsePixels flags defaultPal afterHeader width height).length =
        width * height * 4) ∧
    (∀ (flags : ℕ) (defaultPal afterHeader : List ℕ) (width height i idx : ℕ),
      i < width * height →
      (pidIndices flags afterHeader (width * height)).get? i = some idx →
      (pidHasColorKey flags = true → idx = 0 →
        ((pidParsePixels flags defaultPal afterHeader width height).drop
          (4 * i)).take 4 = [0, 0, 0, 0]) ∧
      (¬ (pidHasColorKey flags = true ∧ idx = 0) →
        ((pidParsePixels flags defaultPal afterHeader width height).drop
          (4 * i)).take 4 =
          [(pidActivePalette flags defaultPal afterHeader).getD (idx * 3) 0,
           (pidActivePalette flags defaultPal afterHeader).getD (idx * 3 + 1) 0,
           (pidActivePalette flags defaultPal afterHeader).getD (idx * 3 + 2) 0,
           255])) ∧
    (∀ (raw defaultPal : List ℕ) (frame : PidFrame),
      pidParse raw defaultPal = Except.ok frame →
      frame.pixels =
        pidParsePixels frame.flags defaultPal (raw.drop 0x10)
          frame.width frame.height) := by
  refine ⟨?_, ?_, ?_⟩
  · intro flags defaultPal afterHeader width height
    unfold pidParsePixels
    rw [pidConvert_length]
  · intro flags defaultPal afterHeader width height i idx hi hidx
    have hchunk := pidConvert_chunk (pidHasColorKey flags)
      (pidActivePalette flags defaultPal afterHeader)
      (pidIndices flags afterHeader (width * height)) (width * height) i hi
    rw [hidx] at hchunk
    constructor
    · intro hck h0
      unfold pidParsePixels
      rw [hchunk]
      simp only [pidPixel]
      rw [if_pos ⟨hck, h0⟩]
    · intro hn
      unfold pidParsePixels
      rw [hchunk]
      simp only [pidPixel]
      rw [if_neg hn]
  · intro raw defaultPal frame h
    unfold pidParse at h
    split at h
    · exact absurd h (by simp)
    · split at h
      · exact absurd h (by simp)
      · rw [Except.ok.injEq] at h
        rw [← h]

/-- Witness for C8 at the specification scenario: width 2, height 1,
ColorKeyPresent set, Compressed unset, raw indices [0, 5], palette entry
5 = (10,20,30); the decoded pixels are (0,0,0,0) and (10,20,30,255). -/
theorem sprite_decode_spec_witness :
    (pidParsePixels 1 exPal [0, 5] 2 1).length = 2 * 1 * 4 ∧
    ((pidParsePixels 1 exPal [0, 5] 2 1).drop (4 * 0)).take 4 = [0, 0, 0, 0] ∧
    ((pidParsePixels 1 exPal [0, 5] 2 1).drop (4 * 1)).take 4 =
      [10, 20, 30, 255] := by
  refine ⟨sprite_decode_spec.1 1 exPal [0, 5] 2 1, ?_, ?_⟩
  · exact (sprite_decode_spec.2.1 1 exPal [0, 5] 2 1 0 0 (by decide)
      (by decide)).1 (by decide) rfl
  · have h := (sprite_decode_spec.2.1 1 exPal [0, 5] 2 1 1 5 (by decide)
      (by decide)).2 (by decide)
    exact h.trans (by decide)

/-! ## C5: the on-ground flag and the landing event -/

/-- C5 amended: on a vertical block while falling (post-gravity vy > 0)
the on-ground flag is set, the vertical velocity is zeroed, and exactly
on the transition from not-grounded to grounded a landing event carrying
the pre-zeroing downward speed is emitted; when the vertical axis is not
blocked the flag is cleared; on a vertical block while NOT falling
(vy <= 0) the flag is left unchanged (not cleared), the velocity is still
zeroed, and no event is emitted.  The on-ground outcome is fully
determined by these three vertical cases, so a horizontal-axis block
never changes it. -/
theorem ground_flag_amended (m : TileCollisionMap) (b : Body) :
    (verticalBlocked m b = true → applyGravity b.onLadder b.vy > 0 →
      (updateBody m b).body.onGround = true ∧
      (updateBody m b).body.vy = 0 ∧
      (b.onGround = false →
        (updateBody m b).landedEvent = some (applyGravity b.onLadder b.vy)) ∧
      (b.onGround = true → (updateBody m b).landedEvent = none)) ∧
    (verticalBlocked m b = true → ¬ applyGravity b.onLadder b.vy > 0 →
      (updateBody m b).body.onGround = b.onGround ∧
      (updateBody m b).body.vy = 0 ∧
      (updateBody m b).landedEvent = none) ∧
    (verticalBlocked m b = false →
      (updateBody m b).body.onGround = false ∧
      (updateBody m b).landedEvent = none) := by
  unfold verticalBlocked
  simp only [updateBody]
  refine ⟨fun hb hf => ?_, fun hb hf => ?_, fun hb => ?_⟩
  · rw [if_pos hb, if_pos hf]
    refine ⟨rfl, rfl, fun hog => ?_, fun hog => ?_⟩
    · simp [hog]
    · simp [hog]
  · rw [if_pos hb, if_neg hf]
    exact ⟨rfl, rfl, rfl⟩
  · rw [if_neg (by simp [hb])]
    exact ⟨rfl, rfl⟩

/-- C5 counterexample: this step has a vertical block while NOT falling
(vy = -1), which is the "otherwise" case of the claim, yet the on-ground
flag stays set instead of being cleared. -/
theorem ground_flag_counterexample :
    verticalBlocked exMapC5 exBodyC5 = true ∧
    ¬ applyGravity exBodyC5.onLadder exBodyC5.vy > 0 ∧
    (updateBody exMapC5 exBodyC5).body.onGround = true := by
  norm_num [verticalBlocked, updateBody, resolveAxis, applyGravity,
    exMapC5, exBodyC5, TileCollisionMap.isSolid, TileCollisionMap.getAtPixel,
    TileCollisionMap.get, mathSign, TILE_SIZE, PIXEL_STUCK_THRESHOLD]

/-- Witness for C5 (amended): a falling non-grounded body blocked below
lands — the flag is set, the event carries the pre-zeroing speed
5 + 0.35 = 107/20, and vy is zeroed. -/
theorem ground_flag_amended_witness :
    (updateBody (mkTileCollisionMap 1 1 64) exBodyC5W).body.onGround = true ∧
    (updateBody (mkTileCollisionMap 1 1 64) exBodyC5W).landedEvent =
      some (107/20) ∧
    (updateBody (mkTileCollisionMap 1 1 64) exBodyC5W).body.vy = 0 := by
  have hb : verticalBlocked (mkTileCollisionMap 1 1 64) exBodyC5W = true := by
    norm_num [verticalBlocked, resolveAxis, applyGravity, exBodyC5W,
      mkTileCollisionMap, TileCollisionMap.isSolid, TileCollisionMap.getAtPixel,
      TileCollisionMap.get, mathSign, TILE_SIZE, PIXEL_STUCK_THRESHOLD,
      GRAVITY, MAX_FALL_SPEED]
  have hf : applyGravity exBodyC5W.onLadder exBodyC5W.vy > 0 := by
    norm_num [applyGravity, exBodyC5W, GRAVITY, MAX_FALL_SPEED]
  have h := (ground_flag_amended (mkTileCollisionMap 1 1 64) exBodyC5W).1 hb hf
  refine ⟨h.1, (h.2.2.1 rfl).trans ?_, h.2.1⟩
  norm_num [applyGravity, exBodyC5W, GRAVITY, MAX_FALL_SPEED]

/-! ## C1: axis-collision snapping -/

/-- C1 amended: an axis is reported blocked exactly when one of its two
leading-edge probe points (inset 1 px on the cross axis) is solid, and a
blocked axis has its velocity zeroed by the step.  On the HORIZONTAL axis
the resolved position snaps to the trailing tile boundary offset by half
the width plus 1 px of clearance, except that when that snap position is
within 2 px of the pre-collision position the body is nudged exactly one
pixel opposite the direction of travel.  On the VERTICAL axis the
resolved position snaps to the trailing tile boundary offset by exactly
half the height, with no clearance pixel and no pixel-stuck nudge. -/
theorem resolve_axis_snap_amended :
    (∀ (m : TileCollisionMap) (x y vx vy w h : ℚ),
      ((resolveAxis m x y vx vy w h true).2 = true ↔
        (m.isSolid (hTestX x vx w) (y - h / 2 + 1) = true ∨
         m.isSolid (hTestX x vx w) (y + h / 2 - 1) = true))) ∧
    (∀ (m : TileCollisionMap) (x y vx vy w h : ℚ),
      ((resolveAxis m x y vx vy w h false).2 = true ↔
        (m.isSolid (x - w / 2 + 1) (vTestY y vy h) = true ∨
         m.isSolid (x + w / 2 - 1) (vTestY y vy h) = true))) ∧
    (∀ (m : TileCollisionMap) (x y vx vy w h : ℚ),
      (resolveAxis m x y vx vy w h true).2 = true →
      (resolveAxis m x y vx vy w h true).1 =
        if |hSnap x vx w - x| < PIXEL_STUCK_THRESHOLD then x - mathSign vx
        else hSnap x vx w) ∧
    (∀ (m : TileCollisionMap) (x y vx vy w h : ℚ),
      (resolveAxis m x y vx vy w h true).2 = false →
      (resolveAxis m x y vx vy w h true).1 = x) ∧
    (∀ (m : TileCollisionMap) (x y vx vy w h : ℚ),
      (resolveAxis m x y vx vy w h false).2 = true →
      (resolveAxis m x y vx vy w h false).1 = vSnap y vy h) ∧
    (∀ (m : TileCollisionMap) (x y vx vy w h : ℚ),
      (resolveAxis m x y vx vy w h false).2 = false →
      (resolveAxis m x y vx vy w h false).1 = y) ∧
    (∀ (m : TileCollisionMap) (b : Body),
      (resolveAxis m (b.x + b.vx) b.y b.vx 0 b.w b.h true).2 = true →
      (updateBody m b).body.vx = 0) ∧
    (∀ (m : TileCollisionMap) (b : Body),
      verticalBlocked m b = true → (updateBody m b).body.vy = 0) := by
  refine ⟨?_, ?_, ?_, ?_, ?_, ?_, ?_, ?_⟩
  · intro m x y vx vy w h
    simp only [resolveAxis, hTestX]
    split_ifs <;> simp_all
  · intro m x y vx vy w h
    simp only [resolveAxis, vTestY]
    split_ifs <;> simp_all
  · intro m x y vx vy w h hb
    simp only [resolveAxis, hTestX, hSnap] at hb ⊢
    split_ifs at hb ⊢ <;> simp_all
  · intro m x y vx vy w h hb
    simp only [resolveAxis] at hb ⊢
    split_ifs at hb ⊢ <;> simp_all
  · intro m x y vx vy w h hb
    simp only [resolveAxis, vTestY, vSnap] at hb ⊢
    split_ifs at hb ⊢ <;> simp_all
  · intro m x y vx vy w h hb
    simp only [resolveAxis] at hb ⊢
    split_ifs at hb ⊢ <;> simp_all
  · intro m b hb
    simp only [updateBody]
    split_ifs <;> simp_all
  · intro m b hb
    unfold verticalBlocked at hb
    simp only [updateBody]
    split_ifs <;> simp_all

/-- C1 counterexample: a falling body (vy = 5, h = 10) at y = 70 blocked
at the lower world edge resolves to 59 = 1*64 - 10/2, the trailing tile
boundary offset by exactly half the extent; the claim demands the offset
include 1 px of clearance, predicting 58 = 1*64 - 10/2 - 1 (the nudge
clause does not apply since |58 - 70| is not within 2 px). -/
theorem resolve_axis_snap_counterexample :
    resolveAxis exMapC1 32 70 0 5 10 10 false = (59, true) ∧
    (⌊((70 : ℚ) + 10 / 2) / TILE_SIZE⌋ : ℚ) * TILE_SIZE - 10 / 2 - 1 = 58 ∧
    (59 : ℚ) ≠ 58 := by
  norm_num [resolveAxis, exMapC1, mkTileCollisionMap, TileCollisionMap.isSolid,
    TileCollisionMap.getAtPixel, TileCollisionMap.get, TILE_SIZE]

/-- Witness for C1 (amended) at concrete blocked inputs on both axes. -/
theorem resolve_axis_snap_amended_witness :
    (resolveAxis exMapC1 32 70 0 5 10 10 false).1 = vSnap 70 5 10 ∧
    vSnap 70 5 10 = 59 ∧
    (resolveAxis exMapC1 32 70 5 0 10 10 true).1 =
      (if |hSnap 32 5 10 - 32| < PIXEL_STUCK_THRESHOLD then 32 - mathSign 5
       else hSnap 32 5 10) := by
  have hbv : (resolveAxis exMapC1 32 70 0 5 10 10 false).2 = true := by
    norm_num [resolveAxis, exMapC1, mkTileCollisionMap, TileCollisionMap.isSolid,
      TileCollisionMap.getAtPixel, TileCollisionMap.get, TILE_SIZE]
  have hbh : (resolveAxis exMapC1 32 70 5 0 10 10 true).2 = true := by
    norm_num [resolveAxis, exMapC1, mkTileCollisionMap, TileCollisionMap.isSolid,
      TileCollisionMap.getAtPixel, TileCollisionMap.get, TILE_SIZE,
      PIXEL_STUCK_THRESHOLD, mathSign]
  refine ⟨resolve_axis_snap_amended.2.2.2.2.1 exMapC1 32 70 0 5 10 10 hbv,
    ?_, resolve_axis_snap_amended.2.2.1 exMapC1 32 70 5 0 10 10 hbh⟩
  norm_num [vSnap, vTestY, TILE_SIZE]

/-! ## C2: collision-grid derivation from the action layer -/

theorem buildCell_cols (layer : WwdLayerM) (row : ℕ) (m : TileCollisionMap)
    (col : ℕ) : (buildCell layer row m col).cols = m.cols := by
  unfold buildCell
  split
  · exact TileCollisionMap.set_cols m _ _ _
  · split
    · rfl
    · exact TileCollisionMap.set_cols m _ _ _

theorem buildCell_rows (layer : WwdLayerM) (row : ℕ) (m : TileCollisionMap)
    (col : ℕ) : (buildCell layer row m col).rows = m.rows := by
  unfold buildCell
  split
  · exact TileCollisionMap.set_rows m _ _ _
  · split
    · rfl
    · exact TileCollisionMap.set_rows m _ _ _

theorem foldl_cols {α : Type} (f : TileCollisionMap → α → TileCollisionMap)
    (hf : ∀ m a, (f m a).cols = m.cols) :
    ∀ (l : List α) (m : TileCollisionMap), (l.foldl f m).cols = m.cols := by
  intro l
  induction l with
  | nil => intro m; rfl
  | cons a t ih => intro m; rw [List.foldl_cons, ih, hf]

theorem foldl_rows {α : Type} (f : TileCollisionMap → α → TileCollisionMap)
    (hf : ∀ m a, (f m a).rows = m.rows) :
    ∀ (l : List α) (m : TileCollisionMap), (l.foldl f m).rows = m.rows := by
  intro l
  induction l with
  | nil => intro m; rfl
  | cons a t ih => intro m; rw [List.foldl_cons, ih, hf]

theorem buildCell_get_other (layer : WwdLayerM) (row : ℕ)
    (m : TileCollisionMap) (col : ℕ) (c r : ℤ)
    (h : ((col : ℤ), (row : ℤ)) ≠ (c, r)) :
    (buildCell layer row m col).get c r = m.get c r := by
  unfold buildCell
  split
  · exact TileCollisionMap.get_set_other m _ _ _ _ _ h
  · split
    · rfl
    · exact TileCollisionMap.get_set_other m _ _ _ _ _ h

theorem buildRow_get_untouched (layer : WwdLayerM) (row : ℕ) :
    ∀ (l : List ℕ) (m : TileCollisionMap) (c r : ℤ),
    (∀ col ∈ l, ((col : ℤ), (row : ℤ)) ≠ (c, r)) →
    (l.foldl (buildCell layer row) m).get c r = m.get c r := by
  intro l
  induction l with
  | nil => intro m c r _; rfl
  | cons a t ih =>
    intro m c r hcond
    rw [List.foldl_cons, ih _ c r (fun col hc => hcond col (by simp [hc]))]
    exact buildCell_get_other layer row m a c r (hcond a (by simp))

/-- Value of cell (col,row) after `buildCell` processes exactly that
cell of an in-range map. -/
theorem buildCell_get_self (layer : WwdLayerM) (row : ℕ)
    (m : TileCollisionMap) (col : ℕ)
    (hinrange : m.inRange (col : ℤ) (row : ℤ)) :
    (buildCell layer row m col).get (col : ℤ) (row : ℤ) =
      (match layer.tiles.get? (row * layer.tilesWide.toNat + col) with
       | none => 0
       | some t =>
         if t < 0 then m.get (col : ℤ) (row : ℤ)
         else if int32SignBitSet t ∨ t = 0 then 1 else 0) := by
  unfold buildCell
  cases layer.tiles.get? (row * layer.tilesWide.toNat + col) with
  | none => exact TileCollisionMap.get_set_same m _ _ _ hinrange
  | some t =>
    simp only
    split
    · rfl
    · exact TileCollisionMap.get_set_same m _ _ _ hinrange

/-- Value of cell (col,row) after the inner loop processed columns
0..n-1, in terms of the incoming map value. -/
theorem buildRow_get_at (layer : WwdLayerM) (row : ℕ) :
    ∀ (n : ℕ) (m : TileCollisionMap), n ≤ layer.tilesWide.toNat →
    m.cols = layer.tilesWide → m.rows = layer.tilesHigh →
    (row : ℤ) < layer.tilesHigh →
    ∀ col : ℕ, col < n →
    ((List.range n).foldl (buildCell layer row) m).get (col : ℤ) (row : ℤ) =
      (match layer.tiles.get? (row * layer.tilesWide.toNat + col) with
       | none => 0
       | some t =>
         if t < 0 then m.get (col : ℤ) (row : ℤ)
         else if int32SignBitSet t ∨ t = 0 then 1 else 0) := by
  intro n
  induction n with
  | zero => intro m _ _ _ _ col hcol; omega
  | succ n ih =>
    intro m hn hcols hrows hrow col hcol
    rw [List.range_succ, List.foldl_append, List.foldl_cons, List.foldl_nil]
    have hMcols : ((List.range n).foldl (buildCell layer row) m).cols =
        layer.tilesWide := by
      rw [foldl_cols (buildCell layer row) (buildCell_cols layer row), hcols]
    have hMrows : ((List.range n).foldl (buildCell layer row) m).rows =
        layer.tilesHigh := by
      rw [foldl_rows (buildCell layer row) (buildCell_rows layer row), hrows]
    rcases Nat.lt_or_ge col n with hlt | hge
    · -- the last iteration writes column n ≠ col
      rw [buildCell_get_other layer row _ n (col : ℤ) (row : ℤ)
        (by simp only [ne_eq, Prod.mk.injEq]; intro hcon; omega)]
      exact ih m (by omega) hcols hrows hrow col hlt
    · -- col = n: the last iteration writes exactly this cell
      have hcoleq : col = n := by omega
      subst hcoleq
      have hinrange :
          ((List.range col).foldl (buildCell layer row) m).inRange
            (col : ℤ) (row : ℤ) := by
        unfold TileCollisionMap.inRange
        rw [hMcols, hMrows]
        have hwide : (col : ℤ) < layer.tilesWide := by
          have h1 : col < layer.tilesWide.toNat := by omega
          omega
        exact ⟨by positivity, hwide, by positivity, hrow⟩
      have huntouched :
          ((List.range col).foldl (buildCell layer row) m).get
            (col : ℤ) (row : ℤ) = m.get (col : ℤ) (row : ℤ) :=
        buildRow_get_untouched layer row (List.range col) m _ _
          (by
            intro c hc
            simp only [List.mem_range] at hc
            simp only [ne_eq, Prod.mk.injEq]
            intro hcon
            omega)
      rw [buildCell_get_self layer row _ col hinrange]
      cases hq : layer.tiles.get? (row * layer.tilesWide.toNat + col) with
      | none => rfl
      | some t =>
        simp only
        rw [huntouched]

/-- Rows other than those processed by the outer loop are untouched. -/
theorem buildMap_get_untouched (layer : WwdLayerM) :
    ∀ (l : List ℕ) (m : TileCollisionMap) (c r : ℤ),
    (∀ row ∈ l, (row : ℤ) ≠ r) →
    (l.foldl (buildRow layer) m).get c r = m.get c r := by
  intro l
  induction l with
  | nil => intro m c r _; rfl
  | cons a t ih =>
    intro m c r hcond
    rw [List.foldl_cons, ih _ c r (fun row hrw => hcond row (by simp [hrw]))]
    exact buildRow_get_untouched layer a (List.range layer.tilesWide.toNat) m
      c r (by
        intro col _
        simp only [ne_eq, Prod.mk.injEq]
        intro hcon
        exact hcond a (by simp) (by omega))

theorem buildMap_get_at (layer : WwdLayerM) :
    ∀ (n : ℕ) (m : TileCollisionMap), n ≤ layer.tilesHigh.toNat →
    m.cols = layer.tilesWide → m.rows = layer.tilesHigh →
    ∀ (col row : ℕ), col < layer.tilesWide.toNat → row < n →
    ((List.range n).foldl (buildRow layer) m).get (col : ℤ) (row : ℤ) =
      (match layer.tiles.get? (row * layer.tilesWide.toNat + col) with
       | none => 0
       | some t =>
         if t < 0 then m.get (col : ℤ) (row : ℤ)
         else if int32SignBitSet t ∨ t = 0 then 1 else 0) := by
  intro n
  induction n with
  | zero => intro m _ _ _ col row _ hrow; omega
  | succ n ih =>
    intro m hn hcols hrows col row hcol hrow
    rw [List.range_succ, List.foldl_append, List.foldl_cons, List.foldl_nil]
    have hMcols : ((List.range n).foldl (buildRow layer) m).cols =
        layer.tilesWide := by
      rw [foldl_cols (buildRow layer)
        (fun m a => foldl_cols (buildCell layer a) (buildCell_cols layer a) _ m),
        hcols]
    have hMrows : ((List.range n).foldl (buildRow layer) m).rows =
        layer.tilesHigh := by
      rw [foldl_rows (buildRow layer)
        (fun m a => foldl_rows (buildCell layer a) (buildCell_rows layer a) _ m),
        hrows]
    rcases Nat.lt_or_ge row n with hlt | hge
    · -- the last outer iteration processes row n ≠ row
      rw [show buildRow layer ((List.range n).foldl (buildRow layer) m) n =
          (List.range layer.tilesWide.toNat).foldl (buildCell layer n)
            ((List.range n).foldl (buildRow layer) m) from rfl]
      rw [buildRow_get_untouched layer n _ _ _ _
        (by
          intro c _
          simp only [ne_eq, Prod.mk.injEq]
          intro hcon
          omega)]
      exact ih m (by omega) hcols hrows col row hcol hlt
    · have hroweq : row = n := by omega
      subst hroweq
      have hrowlt : (row : ℤ) < layer.tilesHigh := by
        have h1 : row < layer.tilesHigh.toNat := by omega
        omega
      have hstep := buildRow_get_at layer row layer.tilesWide.toNat
        ((List.range row).foldl (buildRow layer) m) (le_refl _)
        hMcols hMrows hrowlt col hcol
      have huntouched :
          ((List.range row).foldl (buildRow layer) m).get (col : ℤ) (row : ℤ) =
            m.get (col : ℤ) (row : ℤ) :=
        buildMap_get_untouched layer (List.range row) m _ _
          (by
            intro rw2 hrw2
            simp only [List.mem_range] at hrw2
            omega)
      rw [show buildRow layer ((List.range row).foldl (buildRow layer) m) row =
          (List.range layer.tilesWide.toNat).foldl (buildCell layer row)
            ((List.range row).foldl (buildRow layer) m) from rfl]
      rw [hstep, huntouched]

/-- Per-cell description of the built collision grid. -/
theorem buildCollisionMap_get (layer : WwdLayerM) (col row : ℕ)
    (hc : col < layer.tilesWide.toNat) (hr : row < layer.tilesHigh.toNat) :
    (buildCollisionMap layer).get (col : ℤ) (row : ℤ) =
      (match layer.tiles.get? (row * layer.tilesWide.toNat + col) with
       | none => 0
       | some t => if t < 0 then 0
                   else if int32SignBitSet t ∨ t = 0 then 1 else 0) := by
  unfold buildCollisionMap
  have hinit := buildMap_get_at layer layer.tilesHigh.toNat
    (mkTileCollisionMap layer.tilesWide layer.tilesHigh (layer.tileWidth : ℚ))
    (le_refl _) rfl rfl col row hc hr
  rw [hinit]
  have hget0 : (mkTileCollisionMap layer.tilesWide layer.tilesHigh
      (layer.tileWidth : ℚ)).get (col : ℤ) (row : ℤ) = 0 := by
    apply TileCollisionMap.get_mk
    unfold TileCollisionMap.inRange
    refine ⟨by omega, ?_, by omega, ?_⟩
    · show (col : ℤ) < layer.tilesWide
      omega
    · show (row : ℤ) < layer.tilesHigh
      omega
  cases layer.tiles.get? (row * layer.tilesWide.toNat + col) with
  | none => rfl
  | some t =>
    simp only
    rw [hget0]

/-- C2: for every parsed level the collision grid is derived from the
layer at index 1 (falling back to index 0 when absent), and for every
tile cell of that layer a negative tile index yields an Empty cell, a
non-negative index yields a Solid cell exactly when its sign bit is set
or its value is exactly zero, and every other non-negative index yields a
passable (Empty) cell. -/
theorem collision_derivation_spec :
    (∀ (raw : List ℕ) (level : WwdLevelM), wwdParse raw = Except.ok level →
      ∃ L, selectActionLayer level.layers = some L ∧
        level.collisionMap = buildCollisionMap L) ∧
    (∀ layers : List WwdLayerM, 2 ≤ layers.length →
      selectActionLayer layers = layers.get? 1) ∧
    (∀ layers : List WwdLayerM, layers.length ≤ 1 →
      selectActionLayer layers = layers.get? 0) ∧
    (∀ (layer : WwdLayerM) (col row : ℕ),
      layer.tiles.length = layer.tilesWide.toNat * layer.tilesHigh.toNat →
      col < layer.tilesWide.toNat → row < layer.tilesHigh.toNat →
      (buildCollisionMap layer).get (col : ℤ) (row : ℤ) =
        (if layer.tiles.getD (row * layer.tilesWide.toNat + col) 0 < 0 then 0
         else if int32SignBitSet
             (layer.tiles.getD (row * layer.tilesWide.toNat + col) 0) ∨
             layer.tiles.getD (row * layer.tilesWide.toNat + col) 0 = 0
           then 1 else 0)) := by
  refine ⟨?_, ?_, ?_, ?_⟩
  · intro raw level h
    simp only [wwdParse] at h
    split at h
    · exact absurd h (by simp)
    · split at h
      · exact absurd h (by simp)
      · split at h
        · exact absurd h (by simp)
        · split at h
          · exact absurd h (by simp)
          · split at h
            · exact absurd h (by simp)
            · next L hsel =>
              rw [Except.ok.injEq] at h
              subst h
              exact ⟨L, hsel, rfl⟩
  · intro layers hlen
    unfold selectActionLayer
    match layers, hlen with
    | a :: b :: t, _ => rfl
  · intro layers hlen
    unfold selectActionLayer
    match layers, hlen with
    | [], _ => rfl
    | [a], _ => rfl
  · intro layer col row hlen hc hr
    have hidx : row * layer.tilesWide.toNat + col < layer.tiles.length := by
      rw [hlen]
      calc row * layer.tilesWide.toNat + col
          < row * layer.tilesWide.toNat + layer.tilesWide.toNat := by omega
        _ = (row + 1) * layer.tilesWide.toNat := by ring
        _ ≤ layer.tilesHigh.toNat * layer.tilesWide.toNat :=
            Nat.mul_le_mul_right _ (by omega)
        _ = layer.tilesWide.toNat * layer.tilesHigh.toNat := Nat.mul_comm _ _
    have hq : layer.tiles.get? (row * layer.tilesWide.toNat + col) =
        some (layer.tiles.getD (row * layer.tilesWide.toNat + col) 0) := by
      rw [List.getD_eq_getElem?_getD, List.get?_eq_getElem?]
      cases hx : layer.tiles[row * layer.tilesWide.toNat + col]? with
      | none =>
        rw [List.getElem?_eq_none_iff] at hx
        omega
      | some v => rfl
    rw [buildCollisionMap_get layer col row hc hr, hq]

/-- Witness for C2 at `exLayerC2`: tile 0 at (1,0) is Solid, tile -1 at
(0,0) and tile 5 at (0,1) are Empty/passable; a single-layer list selects
layer 0 and a two-layer list selects layer 1. -/
theorem collision_derivation_spec_witness :
    (buildCollisionMap exLayerC2).get 1 0 = 1 ∧
    (buildCollisionMap exLayerC2).get 0 0 = 0 ∧
    (buildCollisionMap exLayerC2).get 0 1 = 0 ∧
    selectActionLayer [exLayerC2] = some exLayerC2 ∧
    selectActionLayer [exLayerC2, exLayerC2] = some exLayerC2 := by
  have h1 := collision_derivation_spec.2.2.2 exLayerC2 1 0 (by decide)
    (by decide) (by decide)
  have h2 := collision_derivation_spec.2.2.2 exLayerC2 0 0 (by decide)
    (by decide) (by decide)
  have h3 := collision_derivation_spec.2.2.2 exLayerC2 0 1 (by decide)
    (by decide) (by decide)
  have h4 := collision_derivation_spec.2.2.1 [exLayerC2] (by decide)
  have h5 := collision_derivation_spec.2.1 [exLayerC2, exLayerC2] (by decide)
  refine ⟨?_, ?_, ?_, h4.trans (by rfl), h5.trans (by rfl)⟩
  · exact_mod_cast h1.trans (by decide)
  · exact_mod_cast h2.trans (by decide)
  · exact_mod_cast h3.trans (by decide)

/-! ## C10: a declared layer count of zero crashes the parse -/

/-- C10: level parsing returns a Level only when at least one layer was
parsed; when the header declares a layer count of zero the parse neither
returns a Level nor raises the typed InvalidMagic parse error — the
collision-map derivation dereferences the missing action layer
(`layers[1] ?? layers[0]` is `undefined`) and an untyped runtime error
(modelled by `WwdFailure.runtimeError`) escapes. -/
theorem zero_layer_parse_spec :
    (∀ (raw : List ℕ) (level : WwdLevelM),
      wwdParse raw = Except.ok level → level.layers ≠ []) ∧
    (∀ raw : List ℕ, 0x5E8 ≤ raw.length → wwdMagicOk raw = true →
      readU32LE raw 0x5D8 = 0 →
      wwdParse raw = Except.error WwdFailure.runtimeError) := by
  constructor
  · intro raw level h hnil
    simp only [wwdParse] at h
    split at h
    · exact absurd h (by simp)
    · split at h
      · exact absurd h (by simp)
      · split at h
        · exact absurd h (by simp)
        · split at h
          · exact absurd h (by simp)
          · split at h
            · exact absurd h (by simp)
            · next L hsel =>
              rw [Except.ok.injEq] at h
              subst h
              simp only at hnil
              rw [hnil] at hsel
              exact absurd hsel (by simp [selectActionLayer])
  · intro raw hlen hmagic hcount
    simp only [wwdParse]
    rw [if_neg (by omega), if_neg (by simp [hmagic]), if_neg (by omega),
      hcount]
    simp [MAX_LAYERS, selectActionLayer, List.mapM.loop, pure, Except.pure]

theorem exRawC10_length : exRawC10.length = 1536 := by
  unfold exRawC10
  rw [List.length_append, List.length_replicate]
  rfl

theorem exRawC10_magic : wwdMagicOk exRawC10 = true := by
  unfold wwdMagicOk exRawC10
  rw [List.getD_append _ _ 0 0 (by norm_num),
    List.getD_append _ _ 0 1 (by norm_num),
    List.getD_append _ _ 0 2 (by norm_num),
    List.getD_append _ _ 0 3 (by norm_num)]
  decide

theorem exRawC10_layerCount : readU32LE exRawC10 0x5D8 = 0 := by
  unfold readU32LE exRawC10
  rw [List.getD_append_right _ _ 0 0x5D8 (by norm_num),
    List.getD_append_right _ _ 0 0x5D9 (by norm_num),
    List.getD_append_right _ _ 0 0x5DA (by norm_num),
    List.getD_append_right _ _ 0 0x5DB (by norm_num),
    getD_replicate_zero, getD_replicate_zero, getD_replicate_zero,
    getD_replicate_zero]

/-- Witness for C10: parsing the all-zero WORL buffer ends in the untyped
runtime error. -/
theorem zero_layer_parse_spec_witness :
    wwdParse exRawC10 = Except.error WwdFailure.runtimeError :=
  zero_layer_parse_spec.2 exRawC10
    (by rw [exRawC10_length]; norm_num)
    exRawC10_magic
    exRawC10_layerCount

